import Mathlib

/-!
Verification of the S16 assembler's core translation pipeline.

The Rust sources are shallowly embedded: machine integers become `Nat`
(the source never relies on wrap-around in the embedded fragments: every
bit-packing is over values that fit their fields, which the theorems make
explicit), fallible or panicking code returns `Option`/`Except`, strings
become `String`/`List Char` (the assembler's inputs are ASCII), and the
two mutable passes become explicit state-passing step functions.
-/

namespace S16

/-! ## Register model (src/repr/register.rs) -/

/-- Mirrors `enum Register` in register.rs. -/
inductive Register where
  | None | Ax | Al | Ah | Bx | Bl | Bh | Cx | Cl | Ch | Dx | Dl | Dh
  | Rp | Fp | Bp | Sp | St | Pc
  deriving DecidableEq, Fintype

/-- Mirrors `impl Into<u16> for Register`: the 3-bit family code.
`St` and `Pc` hit the `panic!` arm, modelled as `none`. -/
def regIntoU16 : Register → Option Nat
  | .None => some 0
  | .Ax | .Al | .Ah => some 0
  | .Bx | .Bl | .Bh => some 1
  | .Cx | .Cl | .Ch => some 2
  | .Dx | .Dl | .Dh => some 3
  | .Rp => some 4
  | .Fp => some 5
  | .Bp => some 6
  | .Sp => some 7
  | .St | .Pc => none

/-- ASCII lowercasing of a string, the behaviour of Rust `to_lowercase`
on the assembler's ASCII source text. -/
def strLower (s : String) : String := String.mk (s.data.map Char.toLower)

/-- The fixed register-name set of `impl From<&String> for Register`,
in source order. -/
def regNames : List String :=
  ["none", "ax", "ah", "al", "bx", "bh", "bl", "cx", "ch", "cl",
   "dx", "dh", "dl", "rp", "fp", "bp", "sp", "pc"]

/-- The name table matched by `impl From<&String> for Register` after
`to_lowercase()`; the `panic!` arm is `none`. -/
def regFromLower (l : String) : Option Register :=
  if l = "none" then some .None
  else if l = "ax" then some .Ax
  else if l = "ah" then some .Ah
  else if l = "al" then some .Al
  else if l = "bx" then some .Bx
  else if l = "bh" then some .Bh
  else if l = "bl" then some .Bl
  else if l = "cx" then some .Cx
  else if l = "ch" then some .Ch
  else if l = "cl" then some .Cl
  else if l = "dx" then some .Dx
  else if l = "dh" then some .Dh
  else if l = "dl" then some .Dl
  else if l = "rp" then some .Rp
  else if l = "fp" then some .Fp
  else if l = "bp" then some .Bp
  else if l = "sp" then some .Sp
  else if l = "pc" then some .Pc
  else none

/-- Mirrors `impl From<&String> for Register`: case-insensitive match
against the fixed name table. -/
def regFromString (s : String) : Option Register :=
  regFromLower (strLower s)

/-! ## Opcode model (src/repr/opcode.rs) -/

/-- Mirrors `enum Opcode` in opcode.rs, in source order. -/
inductive Opcode where
  | Nop | Add | Addu | Addc | Inc | Sub | Subu | Subb | Dec | Cmp
  | Neg | Move | Push | Pop | PushA | PopA | PushF | PopF | Swap | In
  | Out | Lda | MovI | Mul | Mulu | Div | Divu | Csign | Not | And
  | Or | Xor | Sra | Srl | Sll | Clear | Call | Ret | Jump | Jeq
  | Jne | Jgt | Jle | Jgte | Jlte | Jzro | Jnzro | Jovf | Jcry | Scry
  | Ccry | Eitr | Ditr | Intr | Into | Iret | Load | Store
  deriving DecidableEq, Fintype

/-- Mirrors `impl Into<u16> for Opcode`: the numeric code of each opcode. -/
def opcodeCode : Opcode → Nat
  | .Nop => 0 | .Add => 1 | .Addu => 2 | .Addc => 3 | .Inc => 4
  | .Sub => 5 | .Subu => 6 | .Subb => 7 | .Dec => 8 | .Cmp => 9
  | .Neg => 10 | .Move => 11 | .Push => 12 | .Pop => 13 | .PushA => 14
  | .PopA => 15 | .PushF => 16 | .PopF => 17 | .Swap => 18 | .In => 19
  | .Out => 20 | .Lda => 21 | .MovI => 22 | .Mul => 23 | .Mulu => 24
  | .Div => 25 | .Divu => 26 | .Csign => 27 | .Not => 28 | .And => 29
  | .Or => 30 | .Xor => 31 | .Sra => 32 | .Srl => 33 | .Sll => 34
  | .Clear => 35 | .Call => 36 | .Ret => 37 | .Jump => 38 | .Jeq => 39
  | .Jne => 40 | .Jgt => 41 | .Jle => 42 | .Jgte => 43 | .Jlte => 44
  | .Jzro => 45 | .Jnzro => 46 | .Jovf => 47 | .Jcry => 48 | .Scry => 49
  | .Ccry => 50 | .Eitr => 51 | .Ditr => 52 | .Intr => 53 | .Into => 54
  | .Iret => 55 | .Load => 56 | .Store => 57

/-- All opcodes of the table, in the order of `enum Opcode`. -/
def opcodeAll : List Opcode :=
  [.Nop, .Add, .Addu, .Addc, .Inc, .Sub, .Subu, .Subb, .Dec, .Cmp,
   .Neg, .Move, .Push, .Pop, .PushA, .PopA, .PushF, .PopF, .Swap, .In,
   .Out, .Lda, .MovI, .Mul, .Mulu, .Div, .Divu, .Csign, .Not, .And,
   .Or, .Xor, .Sra, .Srl, .Sll, .Clear, .Call, .Ret, .Jump, .Jeq,
   .Jne, .Jgt, .Jle, .Jgte, .Jlte, .Jzro, .Jnzro, .Jovf, .Jcry, .Scry,
   .Ccry, .Eitr, .Ditr, .Intr, .Into, .Iret, .Load, .Store]

/-- The mnemonic table of `impl From<&String> for Opcode`, in source order. -/
def opcodeMnemonics : List String :=
  ["nop", "add", "addu", "addc", "inc", "sub", "subu", "subb", "dec", "cmp",
   "neg", "move", "push", "pop", "pusha", "popa", "pushf", "popf", "swap", "in",
   "out", "lda", "movi", "mul", "mulu", "div", "divu", "csign", "not", "and",
   "or", "xor", "sra", "srl", "sll", "clear", "call", "ret", "jump", "jeq",
   "jne", "jgt", "jle", "jgte", "jlte", "jzro", "jnzro", "jovf", "jcry", "scry",
   "ccry", "eitr", "ditr", "intr", "into", "iret", "load", "store"]

/-! ## Operand and instruction model (src/repr/instruction.rs) -/

/-- Mirrors `enum Operand`. Immediate payloads are `Nat`; the `u8`/`u16`
bounds of the Rust types appear as explicit hypotheses where they matter. -/
inductive Operand where
  | Register (r : Register)
  | ShortImmediate (v : Nat)
  | LargeImmediate (v : Nat)
  deriving DecidableEq

/-- Mirrors `impl Into<u16> for Operand`: a register contributes its family
code (failing for `St`/`Pc`), an immediate its raw value. -/
def operandIntoU16 : Operand → Option Nat
  | .Register r => regIntoU16 r
  | .ShortImmediate v => some v
  | .LargeImmediate v => some v

/-- Mirrors `struct Instruction`, plus the `register_code` field that
validation.rs reads from instructions (`instr.register_code`); the
encoder ignores this field. -/
structure Instruction where
  opcode : Opcode
  register_code : Nat
  high : Bool
  low : Bool
  signed : Bool
  set_flags : Bool
  operand_a : Operand
  operand_b : Operand
  deriving DecidableEq

/-- Mirrors `enum InstrType`: a 16-bit Regular word or a 32-bit Long word. -/
inductive InstrType where
  | Regular (w : Nat)
  | Long (w : Nat)
  deriving DecidableEq

/-- Mirrors `Register::get_reg_code`: the packed 4-bit register code of an
operand pair; the `panic!` arms (immediate in first position, `St`/`Pc`)
are `none`. -/
def getRegCode (reg_a reg_b : Operand) : Option Nat :=
  match reg_a with
  | .ShortImmediate _ | .LargeImmediate _ => none
  | .Register ra =>
    let aCode : Option Nat :=
      match ra with
      | .None => some 0b0000
      | .Al | .Bl | .Cl | .Dl => some 0b0010
      | .Ah | .Bh | .Ch | .Dh => some 0b0001
      | .Ax | .Bx | .Cx | .Dx | .Rp | .Fp | .Bp | .Sp => some 0b0011
      | _ => none
    match aCode with
    | none => none
    | some a =>
      match reg_b with
      | .Register rb =>
        (match rb with
         | .None => some 0b0000
         | .Al | .Bl | .Cl | .Dl => some 0b1000
         | .Ah | .Bh | .Ch | .Dh => some 0b0100
         | .Ax | .Bx | .Cx | .Dx | .Rp | .Fp | .Bp | .Sp => some 0b1100
         | _ => none).map (· ||| a)
      | .ShortImmediate _ | .LargeImmediate _ => some (a <<< 2)

/-- Nat value of a Rust `bool as u16` cast. -/
def bitOf (b : Bool) : Nat := if b then 1 else 0

/-- Mirrors `impl Into<InstrType> for Instruction`: the bit-packing
algorithm. `none` models the `panic!` of `Operand::into` on `St`/`Pc`. -/
def instrEncode (i : Instruction) : Option InstrType :=
  let opcode := (opcodeCode i.opcode) <<< 10
  let high := (bitOf i.high) <<< 9
  let low := (bitOf i.low) <<< 8
  let flag := (bitOf i.set_flags) <<< 7
  let signed := (bitOf i.signed) <<< 6
  match operandIntoU16 i.operand_b, operandIntoU16 i.operand_a with
  | some operand_b_code, some operand_a_code =>
    let upper_instr := 0 ||| opcode ||| high ||| low ||| flag ||| signed
    match i.operand_b with
    | .Register _ | .ShortImmediate _ =>
      some (.Regular (upper_instr ||| operand_a_code <<< 3 ||| operand_b_code))
    | .LargeImmediate _ =>
      some (.Long (upper_instr <<< 16 ||| operand_a_code <<< 16 ||| operand_b_code))
  | _, _ => none

/-- Big-endian bytes of a 16-bit word (`u16::to_be_bytes`). -/
def toBE16 (n : Nat) : List Nat := [n / 2 ^ 8 % 2 ^ 8, n % 2 ^ 8]

/-- Big-endian bytes of a 32-bit word (`u32::to_be_bytes`). -/
def toBE32 (n : Nat) : List Nat :=
  [n / 2 ^ 24 % 2 ^ 8, n / 2 ^ 16 % 2 ^ 8, n / 2 ^ 8 % 2 ^ 8, n % 2 ^ 8]

/-- Mirrors `struct Data`: the raw bytes a data directive emits. -/
structure Data where
  bytes : List Nat
  deriving DecidableEq

/-- Mirrors `enum InstructionOrData`. -/
inductive InstructionOrData where
  | Instruction (i : S16.Instruction)
  | Data (d : S16.Data)

/-! ## Validator (src/validation.rs) -/

/-- Mirrors `enum ValidationError`. -/
inductive ValidationError where
  | invalidRegisterCode (code : Nat) (op : Opcode)
  | registerNotNone (r : Register)
  | mixedRegisterTypes (a b : Register)
  | registerIsNone (r : Register)
  | operandNotRegister (o : Operand)
  | operandNotShortImmediate (o : Operand)
  | operandNotLongImmediate (o : Operand)
  | immediateTooLarge (v : Nat)
  | labelInvalidFormat (s : String)
  deriving DecidableEq

/-- Outcome of `validate_label`, which can return `Ok`, return
`Err(LabelInvalidFormat)`, or panic (`chars().nth(0).unwrap()` on the
empty string). -/
inductive LabelCheck where
  | ok
  | invalid
  | panicked
  deriving DecidableEq

/-- Mirrors `validate_label` in validation.rs: the first character must be
ASCII-alphabetic or an underscore and all characters ASCII-alphanumeric or
underscores. On the empty string the `unwrap` of `chars().nth(0)` panics. -/
def validateLabel (s : String) : LabelCheck :=
  match s.data with
  | [] => .panicked
  | c :: _ =>
    if !(c.isAlpha || c == '_') then .invalid
    else if !(s.data.all fun ch => ch.isAlphanum || ch == '_') then .invalid
    else .ok

/-- Mirrors `validate_register_operand_pair`: both operands must be
registers of the same width class (both full, both high-half or both
low-half). -/
def validateRegisterOperandPair (operand_a operand_b : Operand) :
    Except ValidationError Unit :=
  match operand_a with
  | .ShortImmediate _ | .LargeImmediate _ => .error (.operandNotRegister operand_a)
  | .Register reg_a =>
    match operand_b with
    | .ShortImmediate _ | .LargeImmediate _ => .error (.operandNotRegister operand_b)
    | .Register reg_b =>
      match reg_a with
      | .Ax | .Bx | .Cx | .Dx | .Sp | .Fp | .Bp | .Rp =>
        (match reg_b with
         | .Ax | .Bx | .Cx | .Dx | .Sp | .Fp | .Bp | .Rp => .ok ()
         | _ => .error (.mixedRegisterTypes reg_a reg_b))
      | .Ah | .Bh | .Ch | .Dh =>
        (match reg_b with
         | .Ah | .Bh | .Ch | .Dh => .ok ()
         | _ => .error (.mixedRegisterTypes reg_a reg_b))
      | .Al | .Bl | .Cl | .Dl =>
        (match reg_b with
         | .Al | .Bl | .Cl | .Dl => .ok ()
         | _ => .error (.mixedRegisterTypes reg_a reg_b))
      | .None | .Pc | .St => .error (.registerIsNone reg_a)

/-- The operand-shape classes of `validate_instruction`'s five match arms. -/
inductive OpcodeClass where
  | noOperand
  | twoRegister
  | oneRegister
  | regShortImm
  | regLargeImm
  deriving DecidableEq

/-- The grouping of opcodes into the five match arms of
`validate_instruction` (validation.rs lines 106, 137-139, 160-162, 189, 210). -/
def opcodeClass : Opcode → OpcodeClass
  | .Nop | .PopA | .PushA | .PopF | .PushF | .Ret | .Ccry | .Scry
  | .Eitr | .Ditr | .Iret => .noOperand
  | .Add | .Sub | .Cmp | .Move | .Swap | .Mul | .Mulu
  | .Div | .Divu | .And | .Or | .Xor | .Sra | .Srl
  | .Sll | .Lda | .Load | .Store | .Addu | .Subu => .twoRegister
  | .Addc | .Inc | .Subb | .Dec | .Neg | .Push | .Pop | .Csign
  | .Not | .Clear | .Call | .Jump | .Jeq | .Jne | .Jgt | .Jle
  | .Jgte | .Jlte | .Jzro | .Jnzro | .Jovf | .Jcry => .oneRegister
  | .In | .Out | .Intr | .Into => .regShortImm
  | .MovI => .regLargeImm

/-- The register-code guard written in the OneRegister,
RegisterAndShortImmediate and RegisterAndLargeImmediate arms of
`validate_instruction`:
`!(register_code != 0b1100 || register_code != 0b0100 || register_code != 0b1000)`. -/
def oneRegGuard (c : Nat) : Bool :=
  !((c != 0b1100) || (c != 0b0100) || (c != 0b1000))

/-- Mirrors `validate_instruction` in validation.rs. Each early
`return Err(..)` becomes the error branch of a nested match; the error
payloads reproduce the source exactly (including the arms that report
`operand_a` while checking `operand_b`). -/
def validateInstruction (instr : Instruction) : Except ValidationError Unit :=
  match opcodeClass instr.opcode with
  | .noOperand =>
    if instr.register_code != 0 then
      .error (.invalidRegisterCode instr.register_code instr.opcode)
    else
      match instr.operand_a with
      | .ShortImmediate _ | .LargeImmediate _ =>
        .error (.operandNotRegister instr.operand_a)
      | .Register reg =>
        match reg with
        | .None =>
          (match instr.operand_b with
           | .ShortImmediate _ | .LargeImmediate _ =>
             .error (.operandNotRegister instr.operand_a)
           | .Register regb =>
             match regb with
             | .None => .ok ()
             | _ => .error (.registerNotNone regb))
        | _ => .error (.registerNotNone reg)
  | .twoRegister =>
    if !(instr.register_code == 0b1010 || instr.register_code == 0b0101
          || instr.register_code == 0b1001 || instr.register_code == 0b0110
          || instr.register_code == 0b1111) then
      .error (.invalidRegisterCode instr.register_code instr.opcode)
    else
      match instr.operand_a with
      | .ShortImmediate _ | .LargeImmediate _ =>
        .error (.operandNotRegister instr.operand_a)
      | .Register _ =>
        match instr.operand_b with
        | .ShortImmediate _ | .LargeImmediate _ =>
          .error (.operandNotRegister instr.operand_a)
        | .Register _ =>
          validateRegisterOperandPair instr.operand_a instr.operand_b
  | .oneRegister =>
    if oneRegGuard instr.register_code then
      .error (.invalidRegisterCode instr.register_code instr.opcode)
    else
      match instr.operand_a with
      | .ShortImmediate _ | .LargeImmediate _ =>
        .error (.operandNotRegister instr.operand_a)
      | .Register reg =>
        match reg with
        | .None => .error (.registerIsNone reg)
        | _ =>
          match instr.operand_b with
          | .ShortImmediate _ | .LargeImmediate _ =>
            .error (.operandNotRegister instr.operand_a)
          | .Register regb =>
            match regb with
            | .None => .ok ()
            | _ => .error (.registerNotNone regb)
  | .regShortImm =>
    if oneRegGuard instr.register_code then
      .error (.invalidRegisterCode instr.register_code instr.opcode)
    else
      match instr.operand_a with
      | .ShortImmediate _ | .LargeImmediate _ =>
        .error (.operandNotRegister instr.operand_a)
      | .Register _ =>
        match instr.operand_b with
        | .Register _ | .LargeImmediate _ =>
          .error (.operandNotShortImmediate instr.operand_b)
        | .ShortImmediate imm =>
          if imm > 0x1F then .error (.immediateTooLarge imm) else .ok ()
  | .regLargeImm =>
    if oneRegGuard instr.register_code then
      .error (.invalidRegisterCode instr.register_code instr.opcode)
    else
      match instr.operand_a with
      | .ShortImmediate _ | .LargeImmediate _ =>
        .error (.operandNotRegister instr.operand_a)
      | .Register _ =>
        match instr.operand_b with
        | .Register _ | .ShortImmediate _ =>
          .error (.operandNotLongImmediate instr.operand_b)
        | .LargeImmediate _ => .ok ()

/-! ## String helpers shared by the two passes -/

/-- Rust `str::contains(pat)`: some tail of the haystack starts with the
pattern. -/
def containsSub (hay pat : List Char) : Bool :=
  hay.tails.any fun t => pat.isPrefixOf t

/-- Rust `str::split_whitespace`: split on whitespace runs, dropping empty
tokens. `acc` is the current token, reversed. -/
def splitWsAux : List Char → List Char → List (List Char)
  | [], acc => if acc.isEmpty then [] else [acc.reverse]
  | c :: rest, acc =>
    if c.isWhitespace then
      if acc.isEmpty then splitWsAux rest []
      else acc.reverse :: splitWsAux rest []
    else splitWsAux rest (c :: acc)

/-- The whitespace-separated tokens of a line. -/
def splitWs (cs : List Char) : List (List Char) := splitWsAux cs []

/-- The backtick character, `0x60`. -/
def backtick : Char := Char.ofNat 0x60

/-- Value of an ASCII digit character for `from_str_radix`, if any
(`0-9`, `a-f`, `A-F`). -/
def charDigit? (c : Char) : Option Nat :=
  if '0' ≤ c ∧ c ≤ '9' then some (c.toNat - '0'.toNat)
  else if 'a' ≤ c ∧ c ≤ 'f' then some (10 + c.toNat - 'a'.toNat)
  else if 'A' ≤ c ∧ c ≤ 'F' then some (10 + c.toNat - 'A'.toNat)
  else none

/-- Digit-string value in the given radix; `none` on an empty string or a
character that is not a digit of the radix (Rust `from_str_radix` without
sign handling beyond the optional leading `+`). -/
def fromStrRadixCore (radix : Nat) : List Char → Option Nat
  | [] => none
  | cs => cs.foldl (fun acc c =>
      acc.bind fun a => (charDigit? c).bind fun d =>
        if d < radix then some (a * radix + d) else none) (some 0)

/-- Rust `from_str_radix`: allows one leading `+`. -/
def fromStrRadix (radix : Nat) : List Char → Option Nat
  | '+' :: rest => fromStrRadixCore radix rest
  | cs => fromStrRadixCore radix cs

/-- Mirrors `convert_imm_str_to_unsigned::<T>` in instruction.rs: strips a
`0x` or `0b` prefix and parses in base 16, 2 or 10. `bound` is the
exclusive upper bound of the Rust integer type `T`, whose overflow check
makes the parse fail. -/
def convertImm (bound : Nat) (cs : List Char) : Option Nat :=
  let parsed :=
    match cs with
    | '0' :: 'x' :: rest => fromStrRadix 16 rest
    | '0' :: 'b' :: rest => fromStrRadix 2 rest
    | _ => fromStrRadix 10 cs
  parsed.bind fun v => if v < bound then some v else none

/-! ## Data directive parsing (src/repr/instruction.rs, `impl From<&str> for Data`) -/

/-- Mirrors `Data::from(&str)`: `line.find(":")` with `unwrap_or(0)` keeps
the colon in the sliced text, the remainder's first token selects the
directive, and `.asciiz` slices the original line from just after the
first backtick to just before its last character. `none` models the
panics (missing tokens, bad immediates, unknown directive, no backtick). -/
def dataFromLine (line : String) : Option Data :=
  let cs := line.data
  let idx := (cs.findIdx? (· = ':')).getD 0
  let tokens := splitWs (cs.drop idx)
  match tokens.head? with
  | none => none
  | some t =>
    if t = ".byte".data then
      (tokens[1]?).bind fun v => (convertImm (2 ^ 8) v).map fun b => ⟨[b]⟩
    else if t = ".word".data then
      (tokens[1]?).bind fun v => (convertImm (2 ^ 16) v).map fun w => ⟨toBE16 w⟩
    else if t = ".long".data then
      (tokens[1]?).bind fun v => (convertImm (2 ^ 32) v).map fun l => ⟨toBE32 l⟩
    else if t = ".array".data then
      (tokens.tail.mapM (convertImm (2 ^ 8))).map fun bs => ⟨bs⟩
    else if t = ".asciiz".data then
      (cs.findIdx? (· = backtick)).map fun bi =>
        ⟨((cs.take (cs.length - 1)).drop (bi + 1)).map Char.toNat ++ [0]⟩
    else none

/-! ## Label resolver, pass 1 (src/label_table.rs) -/

/-- The mutable state of the `get_label_table` loop: the table built so
far (later inserts shadow earlier ones, like `HashMap::insert`), the
data/code mode flag and the two address counters. -/
structure RState where
  table : List (String × Nat)
  data_mode : Bool
  code_line_num : Nat
  data_line_num : Nat
  deriving DecidableEq

/-- One iteration of the `get_label_table` loop on a trimmed non-empty
line. `none` models the panics (`validate_label(..).unwrap()`, missing
data tokens, unknown directives, `.asciiz` without a backtick). -/
def resolverStep (st : RState) (line : String) : Option RState :=
  let cs := line.data
  -- if the data section has ended, move into code mode
  if containsSub cs ".code:".data then
    some { st with data_mode := false }
  -- if the line is just a label
  else if cs.getLast? = some ':' then
    let label := String.mk cs.dropLast
    match validateLabel label with
    | .ok =>
      some { st with table :=
        (label, if st.data_mode then st.data_line_num else st.code_line_num)
          :: st.table }
    | _ => none
  else
    -- if the line is a label and an instruction or data
    let afterLabel : Option RState :=
      match cs.findIdx? (· = ':') with
      | some index =>
        let label := String.mk (cs.take index)
        (match validateLabel label with
         | .ok =>
           some { st with table :=
             (label, if st.data_mode then st.data_line_num else st.code_line_num)
               :: st.table }
         | _ => none)
      | none => some st
    afterLabel.bind fun st1 =>
      if st1.data_mode then
        let dataPart :=
          match cs.findIdx? (· = ':') with
          | some index => cs.drop (index + 1)
          | none => cs
        let tokens := splitWs dataPart
        match tokens.head? with
        | none => none
        | some t =>
          if t = ".byte".data then
            some { st1 with data_line_num := st1.data_line_num + 1 }
          else if t = ".word".data then
            some { st1 with data_line_num := st1.data_line_num + 2 }
          else if t = ".long".data then
            some { st1 with data_line_num := st1.data_line_num + 4 }
          else if t = ".array".data then
            some { st1 with data_line_num := st1.data_line_num + (tokens.length - 1) }
          else if t = ".asciiz".data then
            (cs.findIdx? (· = backtick)).map fun bi =>
              { st1 with data_line_num :=
                  st1.data_line_num + ((cs.take (cs.length - 1)).drop bi).length + 1 }
          else none
      else
        -- add 2 lines for a 16 bit instr and 4 for a 32 bit instr
        some { st1 with code_line_num := st1.code_line_num +
          (if containsSub (cs.map Char.toLower) "movi".data then 4 else 2) }

/-- Modelled from the spec: the line's mnemonic, i.e. its first
whitespace-separated token, lowercased (pass 1 itself never extracts a
mnemonic, which is what claim C5 is about). -/
def lineMnemonic (line : String) : Option String :=
  (splitWs line.data).head?.map fun t => String.mk (t.map Char.toLower)

/-! ## Line translator mode flag, pass 2 (src/assembler.rs) -/

/-- The `data_mode` update of `process_line` (assembler.rs lines 14-17):
the flag is cleared only by a line exactly equal to `"code:"`; this is the
only mutation of the flag in pass 2. -/
def processLineDataMode (line : String) (data_mode : Bool) : Bool :=
  if line = "code:" then false else data_mode

/-! ## Encoder/emitter (src/main.rs) -/

/-- The literal `vec![0x2E, 0x64, 0x61, 0x74, 0x61, 0x3A]` of main.rs:
".data:" in ASCII. -/
def dataMarkerBytes : List Nat := [0x2E, 0x64, 0x61, 0x74, 0x61, 0x3A]

/-- The bytes of `".code:".as_bytes()` in main.rs. -/
def codeMarkerBytes : List Nat := ".code:".data.map Char.toNat

/-- Big-endian serialization of an encoded instruction
(`to_be_bytes`, 2 bytes for Regular, 4 for Long). -/
def instrTypeBytes : InstrType → List Nat
  | .Regular w => toBE16 w
  | .Long w => toBE32 w

/-- The output loop of main.rs over the translated items: data bytes are
appended verbatim; the first instruction first appends the code-section
marker. The flag plays the role of main's second `data_mode` variable. -/
def emitItems : List InstructionOrData → Bool → Option (List Nat)
  | [], _ => some []
  | .Data d :: rest, dm => (emitItems rest dm).map fun bs => d.bytes ++ bs
  | .Instruction i :: rest, dm =>
    (instrEncode i).bind fun t =>
      (emitItems rest false).map fun bs =>
        (if dm then codeMarkerBytes else []) ++ instrTypeBytes t ++ bs

/-- The whole output byte stream of main.rs: the data marker followed by
the emitted items. -/
def mainBytes (items : List InstructionOrData) : Option (List Nat) :=
  (emitItems items true).map fun bs => dataMarkerBytes ++ bs

/-- Modelled from the spec: the label well-formedness condition as §4.6
states it — non-empty, first character alphabetic or underscore, all
characters alphanumeric or underscore. -/
def specLabelOk (s : String) : Bool :=
  !s.data.isEmpty
    && (match s.data.head? with
        | some c => c.isAlpha || c == '_'
        | none => false)
    && s.data.all fun ch => ch.isAlphanum || ch == '_'

/-- Modelled from the spec: the documented name-to-family-code table of
§4.1/§8 (3-bit codes A=0, B=1, C=2, D=3, Rp=4, Fp=5, Bp=6, Sp=7, with
`none` encoding as 0). -/
def regFamilyDoc : List (String × Nat) :=
  [("none", 0), ("ax", 0), ("ah", 0), ("al", 0), ("bx", 1), ("bh", 1),
   ("bl", 1), ("cx", 2), ("ch", 2), ("cl", 2), ("dx", 3), ("dh", 3),
   ("dl", 3), ("rp", 4), ("fp", 5), ("bp", 6), ("sp", 7)]

/-- Is an encoded-validation result the `InvalidRegisterCodeError` kind? -/
def isInvalidRegCodeErr : Except ValidationError Unit → Bool
  | .error (.invalidRegisterCode _ _) => true
  | _ => false

/-- Does an operand take the Regular (16-bit) instruction form in
`Into<InstrType>`, i.e. is it a register or a short immediate? -/
def regularOperand : Operand → Bool
  | .Register _ => true
  | .ShortImmediate _ => true
  | .LargeImmediate _ => false

deriving instance DecidableEq for Except

/-! ## Helper lemmas -/

/-- Bitwise-or of a left-shifted value with a value that fits entirely
below the shift is plain addition. -/
theorem lorOfLt (x y k : Nat) (hy : y < 2 ^ k) :
    (x <<< k) ||| y = x * 2 ^ k + y := by
  induction k generalizing x y with
  | zero =>
    have hy0 : y = 0 := by simpa using hy
    subst hy0
    simp [Nat.shiftLeft_eq]
  | succ k ih =>
    have hx : x <<< (k + 1) = Nat.bit false (x <<< k) := by
      rw [Nat.bit_val, Nat.shiftLeft_eq, Nat.shiftLeft_eq, pow_succ]
      simp
      ring
    have hyd : Nat.bit (Nat.bodd y) (Nat.div2 y) = y := Nat.bit_decomp y
    have hysum : 2 * Nat.div2 y + (Nat.bodd y).toNat = y := by
      have hv := Nat.bit_val (Nat.bodd y) (Nat.div2 y)
      omega
    have hdiv : Nat.div2 y < 2 ^ k := by
      have hp : y < 2 ^ k * 2 := by rwa [← pow_succ]
      rw [Nat.div2_val]
      omega
    rw [hx, ← hyd, Nat.lor_bit, Nat.bit_val, ih x (Nat.div2 y) hdiv,
      Bool.false_or, pow_succ]
    ring_nf
    omega

/-- The family code of an encodable register is at most 7. -/
theorem regIntoU16_le {r : Register} {a : Nat} (h : regIntoU16 r = some a) :
    a ≤ 7 := by
  cases r <;> simp_all [regIntoU16] <;> omega

/-- Every opcode's numeric code is at most 57. -/
theorem opcodeCode_le : ∀ op : Opcode, opcodeCode op ≤ 57 := by decide

/-- A boolean cast to `Nat` is at most 1. -/
theorem bitOf_le (b : Bool) : bitOf b ≤ 1 := by cases b <;> simp [bitOf]

/-- The register-code guard of the one-register-style arms is
unsatisfiable: a value cannot be equal to 12, 4 and 8 at once. -/
theorem oneRegGuard_false (c : Nat) : oneRegGuard c = false := by
  rcases eq_or_ne c 12 with rfl | h
  · decide
  · simp [oneRegGuard, bne_iff_ne, h]

/-! ## Claims -/

/-- Claim C1: the two passes do NOT recognize the same code-section
boundary line. Pass 1 flips Data→Code on any line containing `".code:"`
(label_table.rs line 28), while pass 2 clears its data-mode flag only on a
line exactly equal to `"code:"` (assembler.rs line 15). On the line
`".code:"` the resolver flips but the translator's flag is unchanged, and
on the line `"code:"` the translator flips while the resolver records an
ordinary label named `code` and stays in data mode. -/
theorem claim_C1 :
    resolverStep ⟨[], true, 0x5800, 0x9000⟩ ".code:"
      = some ⟨[], false, 0x5800, 0x9000⟩
    ∧ processLineDataMode ".code:" true = true
    ∧ processLineDataMode "code:" true = false
    ∧ resolverStep ⟨[], true, 0x5800, 0x9000⟩ "code:"
      = some ⟨[("code", 0x9000)], true, 0x5800, 0x9000⟩ := by
  refine ⟨by decide, by decide, by decide, by decide⟩

/-- Claim C2: on an `.asciiz` line with text "Hi" the resolver advances
the data counter by 4 — the length of the backtick-delimited text plus 2,
because the resolver's slice runs from the opening backtick itself to the
character before the closing backtick — while `Data::from` emits only 3
bytes (the text plus the trailing zero), which is the advance the claim
and the emitter agree on. -/
theorem claim_C2 :
    resolverStep ⟨[], true, 0x5800, 0x9000⟩ ".asciiz `Hi`"
      = some ⟨[], true, 0x5800, 0x9004⟩
    ∧ dataFromLine ".asciiz `Hi`" = some ⟨[0x48, 0x69, 0x00]⟩
    ∧ [0x48, 0x69, 0x00].length = "Hi".length + 1
    ∧ (0x9004 : Nat) = 0x9000 + "Hi".length + 2 := by
  refine ⟨by decide, by decide, by decide, by decide⟩

/-- Claim C8 counterexample: on the empty string `validate_label` does not
fail with `InvalidLabel` — it panics on `chars().nth(0).unwrap()`. -/
theorem claim_C8_cex :
    validateLabel "" = .panicked
    ∧ validateLabel "" ≠ .invalid
    ∧ validateLabel "" ≠ .ok := by
  refine ⟨by decide, by decide, by decide⟩

/-- Claim C8 (amended): label validation succeeds exactly on the
non-empty strings whose first character is ASCII-alphabetic or an
underscore and whose every character is ASCII-alphanumeric or an
underscore; it fails with `InvalidLabel` on every other non-empty string;
on the empty string it panics instead of returning `InvalidLabel`. -/
theorem claim_C8 (s : String) :
    (validateLabel s = .ok ↔ specLabelOk s = true)
    ∧ (validateLabel s = .invalid ↔ (s.data ≠ [] ∧ specLabelOk s = false))
    ∧ (validateLabel s = .panicked ↔ s.data = []) := by
  obtain ⟨cs⟩ := s
  match cs with
  | [] => refine ⟨by decide, by decide, by decide⟩
  | c :: rest =>
    have hd : (String.mk (c :: rest)).data = c :: rest := rfl
    cases h1 : (c.isAlpha || c == '_') <;>
      cases h2 : (c :: rest).all (fun ch => ch.isAlphanum || ch == '_') <;>
        simp only [validateLabel, specLabelOk, hd, List.head?_cons,
          List.isEmpty_cons, h1, h2] <;>
        simp

/-- Claim C9 counterexample: the opcode table does not have 57 mnemonics. -/
theorem claim_C9_cex : opcodeMnemonics.length ≠ 57 := by decide

/-- Claim C9 (amended): the opcode table contains exactly 58 distinct
mnemonics (and 58 distinct opcodes, which exhaust the enumeration), and
every opcode's numeric code fits in 6 bits. -/
theorem claim_C9 :
    opcodeMnemonics.length = 58
    ∧ opcodeAll.length = 58
    ∧ (∀ op : Opcode, op ∈ opcodeAll)
    ∧ opcodeAll.Nodup
    ∧ opcodeMnemonics.Nodup
    ∧ (∀ op : Opcode, opcodeCode op ≤ 63) := by
  refine ⟨by decide, by decide, by decide, by decide, by decide, by decide⟩

/-- Claim C10: the register-code guard
`!(code != 0b1100 || code != 0b0100 || code != 0b1000)` of the
OneRegister, RegisterAndShortImmediate and RegisterAndLargeImmediate arms
is false for every register code, so for instructions of those classes
the `InvalidRegisterCodeError` of that guard can never be produced. -/
theorem claim_C10 :
    (∀ c : Nat, oneRegGuard c = false)
    ∧ ∀ i : Instruction,
        (opcodeClass i.opcode = .oneRegister
          ∨ opcodeClass i.opcode = .regShortImm
          ∨ opcodeClass i.opcode = .regLargeImm) →
        isInvalidRegCodeErr (validateInstruction i) = false := by
  refine ⟨oneRegGuard_false, ?_⟩
  rintro ⟨op, rc, hh, hl, hs, hf, oa, ob⟩ hcl
  rcases hcl with hcl | hcl | hcl <;>
    simp only [validateInstruction, hcl, oneRegGuard_false, Bool.false_eq_true,
      if_false] <;>
    cases oa <;> try rfl
  all_goals rename_i ra
  all_goals cases ra <;> cases ob <;> try rfl
  all_goals
    first
      | (rename_i rb; cases rb <;> rfl)
      | (rename_i v; by_cases hv : v > 31 <;> simp [isInvalidRegCodeErr, hv])

/-- The name table recognizes exactly the strings of `regNames`. -/
theorem regFromLower_mem (l : String) :
    (regFromLower l).isSome = true ↔ l ∈ regNames := by
  rcases eq_or_ne l "none" with rfl | h1
  · decide
  rcases eq_or_ne l "ax" with rfl | h2
  · decide
  rcases eq_or_ne l "ah" with rfl | h3
  · decide
  rcases eq_or_ne l "al" with rfl | h4
  · decide
  rcases eq_or_ne l "bx" with rfl | h5
  · decide
  rcases eq_or_ne l "bh" with rfl | h6
  · decide
  rcases eq_or_ne l "bl" with rfl | h7
  · decide
  rcases eq_or_ne l "cx" with rfl | h8
  · decide
  rcases eq_or_ne l "ch" with rfl | h9
  · decide
  rcases eq_or_ne l "cl" with rfl | h10
  · decide
  rcases eq_or_ne l "dx" with rfl | h11
  · decide
  rcases eq_or_ne l "dh" with rfl | h12
  · decide
  rcases eq_or_ne l "dl" with rfl | h13
  · decide
  rcases eq_or_ne l "rp" with rfl | h14
  · decide
  rcases eq_or_ne l "fp" with rfl | h15
  · decide
  rcases eq_or_ne l "bp" with rfl | h16
  · decide
  rcases eq_or_ne l "sp" with rfl | h17
  · decide
  rcases eq_or_ne l "pc" with rfl | h18
  · decide
  have hnone : regFromLower l = none := by
    simp only [regFromLower, if_neg h1, if_neg h2, if_neg h3, if_neg h4,
      if_neg h5, if_neg h6, if_neg h7, if_neg h8, if_neg h9, if_neg h10,
      if_neg h11, if_neg h12, if_neg h13, if_neg h14, if_neg h15, if_neg h16,
      if_neg h17, if_neg h18]
  simp only [hnone, Option.isSome_none, Bool.false_eq_true, false_iff,
    regNames, List.mem_cons, List.not_mem_nil, or_false]
  rintro (h | h | h | h | h | h | h | h | h | h | h | h | h | h | h | h | h | h) <;>
    contradiction

/-- Claim C7 counterexample: the name `pc` is in the parse set and parses
successfully, but `familyCode` (the `Into<u16>` conversion) then panics
rather than yielding a 3-bit code. -/
theorem claim_C7_cex :
    regFromString "pc" = some .Pc
    ∧ regIntoU16 .Pc = none
    ∧ "pc" ∈ regNames := by
  refine ⟨by decide, by decide, by decide⟩

/-- Claim C7 (amended): register parse is a case-insensitive exact match
over the fixed name set, failing on any other token including `st`; for
every name in the set except `pc`, parse followed by `familyCode` yields
the documented 3-bit family code (`none` also yielding 0); for `pc` the
parse succeeds but `familyCode` fails. -/
theorem claim_C7 :
    (∀ s : String, (regFromString s).isSome = true ↔ strLower s ∈ regNames)
    ∧ regFromString "st" = none
    ∧ (∀ p ∈ regFamilyDoc, ∃ r, regFromString p.1 = some r ∧ regIntoU16 r = some p.2)
    ∧ (regFromString "pc").bind regIntoU16 = none := by
  refine ⟨fun s => regFromLower_mem (strLower s), by decide, by decide, by decide⟩

/-- Claim C7 witness: the hypotheses of the bounded quantifiers of the
theorem discharged at the concrete name `bp`. -/
theorem claim_C7_witness :
    ("bp", 6) ∈ regFamilyDoc
    ∧ ∃ r, regFromString "bp" = some r ∧ regIntoU16 r = some 6 :=
  ⟨by decide, claim_C7.2.2.1 ("bp", 6) (by decide)⟩

/-- The two-register arm of `validate_instruction` succeeds exactly when
the register-code guard passes and the register-pair check passes. -/
theorem validate_twoReg (op : Opcode) (rc : Nat) (hh hl hs hf : Bool)
    (ra rb : Register) (hclass : opcodeClass op = .twoRegister) :
    validateInstruction ⟨op, rc, hh, hl, hs, hf, .Register ra, .Register rb⟩ = .ok ()
    ↔ ((rc == 0b1010 || rc == 0b0101 || rc == 0b1001 || rc == 0b0110
          || rc == 0b1111) = true
        ∧ validateRegisterOperandPair (.Register ra) (.Register rb) = .ok ()) := by
  simp only [validateInstruction, hclass]
  by_cases hg : (rc == 0b1010 || rc == 0b0101 || rc == 0b1001 || rc == 0b0110
      || rc == 0b1111) = true
  · simp [hg]
  · simp [hg]

/-- For register pairs whose packed code is defined, passing both the
code guard and the pair check is equivalent to the packed code lying in
`{0b1010, 0b0101, 0b1111}`: the mixed-half codes `0b1001` and `0b0110`
pass the guard but fail the pair check. -/
theorem pair_code_iff : ∀ ra rb : Register,
    (getRegCode (.Register ra) (.Register rb)).isSome = true →
    ((((getRegCode (.Register ra) (.Register rb)).getD 0 == 0b1010
        || (getRegCode (.Register ra) (.Register rb)).getD 0 == 0b0101
        || (getRegCode (.Register ra) (.Register rb)).getD 0 == 0b1001
        || (getRegCode (.Register ra) (.Register rb)).getD 0 == 0b0110
        || (getRegCode (.Register ra) (.Register rb)).getD 0 == 0b1111) = true
      ∧ validateRegisterOperandPair (.Register ra) (.Register rb) = .ok ())
    ↔ ((getRegCode (.Register ra) (.Register rb)).getD 0 = 0b1010
        ∨ (getRegCode (.Register ra) (.Register rb)).getD 0 = 0b0101
        ∨ (getRegCode (.Register ra) (.Register rb)).getD 0 = 0b1111)) := by
  decide

/-- Claim C3 counterexample: the pair `(Ah, Bl)` packs to `0b1001`, which
is in the claimed legal set, yet validation of a TwoRegister instruction
over that pair fails (with `MixedRegisterTypesError`). -/
theorem claim_C3_cex :
    getRegCode (.Register .Ah) (.Register .Bl) = some 0b1001
    ∧ (0b1001 = 0b1010 ∨ 0b1001 = 0b0101 ∨ 0b1001 = 0b1001
        ∨ 0b1001 = 0b0110 ∨ 0b1001 = 0b1111)
    ∧ validateInstruction
        ⟨.Add, 0b1001, false, false, false, false, .Register .Ah, .Register .Bl⟩
      ≠ .ok () := by
  refine ⟨by decide, by decide, by decide⟩

/-- Claim C3 (amended): for a TwoRegister-class opcode whose operands are
both registers and whose register-code field carries their packed code,
validation succeeds if and only if the packed code is one of
`{0b1010, 0b0101, 0b1111}` — the two mixed-half codes `0b1001` and
`0b0110` of the claimed set pass the code guard but are rejected by the
register-pair check. -/
theorem claim_C3 (i : Instruction) (ra rb : Register) (c : Nat)
    (hclass : opcodeClass i.opcode = .twoRegister)
    (ha : i.operand_a = .Register ra) (hb : i.operand_b = .Register rb)
    (hc : i.register_code = c)
    (hcode : getRegCode (.Register ra) (.Register rb) = some c) :
    validateInstruction i = .ok () ↔ (c = 0b1010 ∨ c = 0b0101 ∨ c = 0b1111) := by
  obtain ⟨op, rc, hh, hl, hs, hf, oa, ob⟩ := i
  simp only at ha hb hc hclass
  subst ha hb hc
  have hsome : (getRegCode (.Register ra) (.Register rb)).isSome = true := by
    rw [hcode]; rfl
  have hgd : (getRegCode (.Register ra) (.Register rb)).getD 0 = rc := by
    rw [hcode]; rfl
  have hpair := pair_code_iff ra rb hsome
  rw [hgd] at hpair
  exact (validate_twoReg op rc hh hl hs hf ra rb hclass).trans hpair

/-- Claim C3 witness: the theorem applied to `add ax, bx`, whose packed
code `0b1111` is legal and which validates successfully. -/
theorem claim_C3_witness :
    opcodeClass Opcode.Add = .twoRegister
    ∧ getRegCode (.Register .Ax) (.Register .Bx) = some 0b1111
    ∧ (validateInstruction
        ⟨.Add, 0b1111, false, false, false, false, .Register .Ax, .Register .Bx⟩
          = .ok ()
        ↔ ((0b1111 : Nat) = 0b1010 ∨ (0b1111 : Nat) = 0b0101
            ∨ (0b1111 : Nat) = 0b1111)) :=
  ⟨rfl, by decide,
    claim_C3 ⟨.Add, 0b1111, false, false, false, false, .Register .Ax, .Register .Bx⟩
      .Ax .Bx 0b1111 rfl rfl rfl rfl (by decide)⟩

/-- Packing disjoint bit fields with bitwise-or equals the corresponding
weighted sum. -/
theorem encodeWordEq (opv h l f s a b : Nat)
    (hop : opv ≤ 63) (hh : h ≤ 1) (hl : l ≤ 1) (hf : f ≤ 1) (hs : s ≤ 1)
    (ha : a ≤ 7) (hb : b < 8) :
    0 ||| (opv <<< 10) ||| (h <<< 9) ||| (l <<< 8) ||| (f <<< 7) ||| (s <<< 6)
      ||| a <<< 3 ||| b
    = opv * 2 ^ 10 + h * 2 ^ 9 + l * 2 ^ 8 + f * 2 ^ 7 + s * 2 ^ 6
        + a * 2 ^ 3 + b := by
  simp only [Nat.zero_or, Nat.lor_assoc]
  rw [lorOfLt a b 3 (by omega)]
  rw [lorOfLt s _ 6 (by omega)]
  rw [lorOfLt f _ 7 (by omega)]
  rw [lorOfLt l _ 8 (by omega)]
  rw [lorOfLt h _ 9 (by omega)]
  rw [lorOfLt opv _ 10 (by omega)]
  ring

/-- Closed form of the Regular-word encoding when operand A is an
encodable register and operand B's code fits its 3-bit field. -/
theorem encodeRegularSpec (op : Opcode) (rc : Nat) (hh hl hs hf : Bool)
    (ra : Register) (ob : Operand) (a b : Nat)
    (ha : regIntoU16 ra = some a) (hb : operandIntoU16 ob = some b)
    (hreg : regularOperand ob = true) (hb8 : b < 8) :
    instrEncode ⟨op, rc, hh, hl, hs, hf, .Register ra, ob⟩
      = some (.Regular (opcodeCode op * 2 ^ 10 + bitOf hh * 2 ^ 9
          + bitOf hl * 2 ^ 8 + bitOf hf * 2 ^ 7 + bitOf hs * 2 ^ 6
          + a * 2 ^ 3 + b)) := by
  have ha' : operandIntoU16 (Operand.Register ra) = some a := ha
  have heq := encodeWordEq (opcodeCode op) (bitOf hh) (bitOf hl) (bitOf hf)
    (bitOf hs) a b (le_trans (opcodeCode_le op) (by omega)) (bitOf_le hh)
    (bitOf_le hl) (bitOf_le hf) (bitOf_le hs) (regIntoU16_le ha) hb8
  cases ob with
  | LargeImmediate v => simp [regularOperand] at hreg
  | Register rb =>
    simp only [instrEncode, ha', hb]
    rw [heq]
  | ShortImmediate v =>
    simp only [instrEncode, ha', hb]
    rw [heq]

/-- Claim C4 counterexample: with operand B the short immediate 9
(valid for the `in` opcode's 5-bit range), the Regular word's bits 2-0
read back 1, not 9, and operand A's field (bits 5-3) reads back 1 instead
of Ax's code 0 - the immediate overlaps the neighbouring field. -/
theorem claim_C4_cex :
    instrEncode ⟨.In, 0, false, false, false, false, .Register .Ax, .ShortImmediate 9⟩
      = some (.Regular 19465)
    ∧ regularOperand (.ShortImmediate 9) = true
    ∧ operandIntoU16 (.ShortImmediate 9) = some 9
    ∧ regIntoU16 .Ax = some 0
    ∧ (19465 : Nat) % 2 ^ 3 ≠ 9
    ∧ (19465 : Nat) / 2 ^ 3 % 2 ^ 3 ≠ 0 := by
  refine ⟨by decide, by decide, by decide, by decide, by decide, by decide⟩

/-- Claim C4 (amended): for every Instruction whose operand A is an
encodable register and whose operand B is an encodable register or a
short immediate with code below 8, encoding yields a 16-bit Regular word
from which the documented bit layout recovers the opcode code
(bits 15-10), the high/low/setFlags/signed bits (bits 9-6), operand A's
3-bit code (bits 5-3) and operand B's code (bits 2-0). -/
theorem claim_C4 (i : Instruction) (ra : Register) (a b : Nat)
    (hA : i.operand_a = .Register ra)
    (ha : operandIntoU16 i.operand_a = some a)
    (hb : operandIntoU16 i.operand_b = some b)
    (hreg : regularOperand i.operand_b = true)
    (hb8 : b < 8) :
    ∃ w, instrEncode i = some (.Regular w)
      ∧ w < 2 ^ 16
      ∧ w / 2 ^ 10 = opcodeCode i.opcode
      ∧ w / 2 ^ 9 % 2 = bitOf i.high
      ∧ w / 2 ^ 8 % 2 = bitOf i.low
      ∧ w / 2 ^ 7 % 2 = bitOf i.set_flags
      ∧ w / 2 ^ 6 % 2 = bitOf i.signed
      ∧ w / 2 ^ 3 % 2 ^ 3 = a
      ∧ w % 2 ^ 3 = b := by
  obtain ⟨op, rc, hh, hl, hs, hf, oa, ob⟩ := i
  simp only at hA ha hb hreg ⊢
  subst hA
  have haR : regIntoU16 ra = some a := ha
  have _hop := opcodeCode_le op
  have _h1 := bitOf_le hh
  have _h2 := bitOf_le hl
  have _h3 := bitOf_le hf
  have _h4 := bitOf_le hs
  have _haLe := regIntoU16_le haR
  exact ⟨_, encodeRegularSpec op rc hh hl hs hf ra ob a b haR hb hreg hb8,
    by omega, by omega, by omega, by omega, by omega, by omega, by omega,
    by omega⟩

/-- Claim C4 witness: the theorem applied to `add ax, bx` (the 0x07C1
example of the spec), recovering opcode 1, all four flag bits, operand A
code 0 and operand B code 1. -/
theorem claim_C4_witness :
    operandIntoU16 (Operand.Register Register.Ax) = some 0
    ∧ operandIntoU16 (Operand.Register Register.Bx) = some 1
    ∧ regularOperand (Operand.Register Register.Bx) = true
    ∧ (1 : Nat) < 8
    ∧ ∃ w, instrEncode
          ⟨.Add, 0b1111, true, true, true, true, .Register .Ax, .Register .Bx⟩
        = some (.Regular w)
      ∧ w < 2 ^ 16
      ∧ w / 2 ^ 10 = opcodeCode Opcode.Add
      ∧ w / 2 ^ 9 % 2 = bitOf true
      ∧ w / 2 ^ 8 % 2 = bitOf true
      ∧ w / 2 ^ 7 % 2 = bitOf true
      ∧ w / 2 ^ 6 % 2 = bitOf true
      ∧ w / 2 ^ 3 % 2 ^ 3 = 0
      ∧ w % 2 ^ 3 = 1 :=
  ⟨rfl, rfl, rfl, by omega,
    claim_C4 ⟨.Add, 0b1111, true, true, true, true, .Register .Ax, .Register .Bx⟩
      .Ax 0 1 rfl rfl rfl rfl (by omega)⟩

/-- Claim C5 counterexample: in Code state the line `jump @movi_target`
advances the code counter by 4 although its mnemonic is `jump`, because
pass 1 tests whether the whole lowercased line contains the substring
`movi`, not the mnemonic. -/
theorem claim_C5_cex :
    resolverStep ⟨[], false, 0x5800, 0x9000⟩ "jump @movi_target"
      = some ⟨[], false, 0x5804, 0x9000⟩
    ∧ lineMnemonic "jump @movi_target" = some "jump"
    ∧ some "jump" ≠ some "movi" := by
  refine ⟨by decide, by decide, by decide⟩

/-- Claim C5 (amended): in the resolver's Code state, a line that is not
the section marker and not a bare label advances the code counter by 4 if
the lowercased line contains the substring `movi`, and by 2 otherwise
(the test is a substring test on the whole line, not on the mnemonic);
the mode flag and the data counter are unchanged. -/
theorem claim_C5 (st st' : RState) (line : String)
    (hmode : st.data_mode = false)
    (hnc : containsSub line.data ".code:".data = false)
    (hnl : ¬ line.data.getLast? = some ':')
    (hstep : resolverStep st line = some st') :
    st'.code_line_num = st.code_line_num +
      (if containsSub (line.data.map Char.toLower) "movi".data then 4 else 2)
    ∧ st'.data_mode = false
    ∧ st'.data_line_num = st.data_line_num := by
  unfold resolverStep at hstep
  simp only [hnc, Bool.false_eq_true, if_false, if_neg hnl] at hstep
  cases hfi : line.data.findIdx? (· = ':') with
  | none =>
    simp only [hfi, Option.some_bind, hmode, Bool.false_eq_true, if_false,
      Option.some.injEq] at hstep
    subst hstep
    simp [hmode]
  | some index =>
    simp only [hfi] at hstep
    cases hv : validateLabel (String.mk (line.data.take index)) with
    | ok =>
      simp only [hv, Option.some_bind, hmode, Bool.false_eq_true, if_false,
        Option.some.injEq] at hstep
      subst hstep
      simp [hmode]
    | invalid => simp [hv] at hstep
    | panicked => simp [hv] at hstep

/-- Claim C5 witness: the theorem applied in Code state to `add ax bx`
(no `movi` substring, advance 2). -/
theorem claim_C5_witness :
    (⟨[], false, 0x5800, 0x9000⟩ : RState).data_mode = false
    ∧ containsSub "add ax bx".data ".code:".data = false
    ∧ ¬ "add ax bx".data.getLast? = some ':'
    ∧ resolverStep ⟨[], false, 0x5800, 0x9000⟩ "add ax bx"
        = some ⟨[], false, 0x5802, 0x9000⟩
    ∧ ((⟨[], false, 0x5802, 0x9000⟩ : RState).code_line_num
        = (⟨[], false, 0x5800, 0x9000⟩ : RState).code_line_num +
          (if containsSub ("add ax bx".data.map Char.toLower) "movi".data
            then 4 else 2)
        ∧ (⟨[], false, 0x5802, 0x9000⟩ : RState).data_mode = false
        ∧ (⟨[], false, 0x5802, 0x9000⟩ : RState).data_line_num
          = (⟨[], false, 0x5800, 0x9000⟩ : RState).data_line_num) :=
  ⟨rfl, by decide, by decide, by decide,
    claim_C5 ⟨[], false, 0x5800, 0x9000⟩ ⟨[], false, 0x5802, 0x9000⟩
      "add ax bx" rfl (by decide) (by decide) (by decide)⟩

/-- A leading block of Data items is emitted verbatim before the rest. -/
theorem emitItems_data (dlist : List Data) (rest : List InstructionOrData)
    (dm : Bool) :
    emitItems (dlist.map .Data ++ rest) dm
      = (emitItems rest dm).map fun bs => dlist.flatMap Data.bytes ++ bs := by
  induction dlist with
  | nil =>
    simp only [List.map_nil, List.nil_append, List.flatMap_nil, List.nil_append]
    cases h : emitItems rest dm <;> simp [h]
  | cons d ds ih =>
    cases h : emitItems rest dm <;>
      simp [emitItems, ih, h, List.append_assoc]

/-- With the code marker already emitted, a block of instructions emits
exactly the concatenation of the encodings. -/
theorem emitItems_instrs_nomark (ilist : List Instruction)
    (henc : ∀ i ∈ ilist, (instrEncode i).isSome = true) :
    emitItems (ilist.map .Instruction) false
      = some (ilist.flatMap fun i => (instrEncode i).elim [] instrTypeBytes) := by
  induction ilist with
  | nil => rfl
  | cons i is ih =>
    obtain ⟨t, ht⟩ := Option.isSome_iff_exists.mp (henc i (by simp))
    have ih' := ih fun j hj => henc j (by simp [hj])
    simp [emitItems, ht, ih']

/-- Claim C6: the emitted byte stream of a translated program (its Data
values followed by its Instructions, in source order, all instructions
encodable) is the data-section marker, each Data value's bytes verbatim,
then — only if at least one instruction exists — the code-section marker
exactly once immediately before the first instruction's bytes, then each
instruction's encoding in source order, each encoding being 2 or 4
big-endian bytes. -/
theorem claim_C6 (dlist : List Data) (ilist : List Instruction)
    (henc : ∀ i ∈ ilist, (instrEncode i).isSome = true) :
    mainBytes (dlist.map .Data ++ ilist.map .Instruction)
      = some (dataMarkerBytes ++ dlist.flatMap Data.bytes ++
          (if ilist.isEmpty then [] else codeMarkerBytes ++
            ilist.flatMap fun i => (instrEncode i).elim [] instrTypeBytes))
    ∧ ∀ i ∈ ilist, ((instrEncode i).elim [] instrTypeBytes).length = 2
        ∨ ((instrEncode i).elim [] instrTypeBytes).length = 4 := by
  constructor
  · unfold mainBytes
    rw [emitItems_data dlist (ilist.map .Instruction) true]
    cases ilist with
    | nil => simp [emitItems]
    | cons i is =>
      obtain ⟨t, ht⟩ := Option.isSome_iff_exists.mp (henc i (by simp))
      have hrest := emitItems_instrs_nomark is fun j hj => henc j (by simp [hj])
      simp [emitItems, ht, hrest, List.append_assoc]
  · intro i hi
    obtain ⟨t, ht⟩ := Option.isSome_iff_exists.mp (henc i hi)
    rw [ht]
    cases t <;> simp [instrTypeBytes, toBE16, toBE32]

/-- Claim C6 witness: a two-byte data value followed by a `nop`; the
stream is the data marker, the data bytes, the code marker and the
two-byte encoding `0x0000`. -/
theorem claim_C6_witness :
    (∀ i ∈ ([⟨.Nop, 0, false, false, false, false, .Register .None,
        .Register .None⟩] : List Instruction), (instrEncode i).isSome = true)
    ∧ (mainBytes ([(⟨[1, 2]⟩ : Data)].map .Data ++
          ([⟨.Nop, 0, false, false, false, false, .Register .None,
            .Register .None⟩] : List Instruction).map .Instruction)
        = some (dataMarkerBytes ++ [(⟨[1, 2]⟩ : Data)].flatMap Data.bytes ++
            (if ([(⟨.Nop, 0, false, false, false, false, .Register .None,
                .Register .None⟩ : Instruction)]).isEmpty then []
             else codeMarkerBytes ++
               [(⟨.Nop, 0, false, false, false, false, .Register .None,
                 .Register .None⟩ : Instruction)].flatMap fun i =>
                   (instrEncode i).elim [] instrTypeBytes))
        ∧ ∀ i ∈ ([⟨.Nop, 0, false, false, false, false, .Register .None,
            .Register .None⟩] : List Instruction),
            ((instrEncode i).elim [] instrTypeBytes).length = 2
            ∨ ((instrEncode i).elim [] instrTypeBytes).length = 4) :=
  ⟨by decide, claim_C6 [⟨[1, 2]⟩]
    [⟨.Nop, 0, false, false, false, false, .Register .None, .Register .None⟩]
    (by decide)⟩

/-- Claim C10 witness: a concrete one-register instruction whose
validation result is not an `InvalidRegisterCodeError`. -/
theorem claim_C10_witness :
    oneRegGuard 5 = false
    ∧ (opcodeClass Opcode.Inc = .oneRegister
        ∨ opcodeClass Opcode.Inc = .regShortImm
        ∨ opcodeClass Opcode.Inc = .regLargeImm)
    ∧ isInvalidRegCodeErr (validateInstruction
        ⟨.Inc, 5, false, false, false, false, .Register .Ax, .Register .None⟩)
      = false :=
  ⟨claim_C10.1 5, Or.inl rfl,
    claim_C10.2 ⟨.Inc, 5, false, false, false, false, .Register .Ax, .Register .None⟩
      (Or.inl rfl)⟩

end S16
